import Mathlib

/-!
Shallow embedding of `src/thrift_client.py` (a client-side RPC dispatch layer:
per-peer connection/call lifecycle, sequential broadcast dispatch, and
hash-based single-peer routing).

Modelling conventions:
* Python exceptions are modelled by the `PyError` type; fallible code returns
  `Except` or pairs a result with an `Option PyError`.
* External collaborators (the thrift socket transport, the generated client
  stub, the audit-file transport) are oracles: a `CallEnv` records, for one
  invocation, the outcome each external step would produce.  The method name
  and arguments of an invocation are fixed per call and absorbed into the
  oracle.
* Python object identity (used by `list.remove`, since `SimpleClient` defines
  no `__eq__`) is modelled by a `pid : Nat` tag on each client record.
* Python `hash` is an opaque deterministic function, passed as a parameter
  `pyhash`; keyword-argument values are modelled by `Int` (Python compares
  them when sorting item tuples, so the model needs an order on them).
-/

/-- Python-level failures that the embedded code can raise or propagate. -/
inductive PyError where
  | clientDisabled
  | valueError
  | typeError
  | zeroDivision
  | unboundLocal (name : String)
  | indexError
  | transport (code : Nat)
deriving DecidableEq, Repr

/-- Line 12: `_DEFAULT_TIMEOUT = 60001`. -/
def _DEFAULT_TIMEOUT : Int := 60001

/-- Python `x or d` for an optional integer `x` (`None` and `0` are falsy),
as used on line 58: `self.timeout = timeout or _DEFAULT_TIMEOUT`. -/
def pyIntOr (v : Option Int) (d : Int) : Int :=
  match v with
  | none => d
  | some x => if x = 0 then d else x

/-- Lines 14–22: `_canonicalize_hostport(host, port)`.  An explicit port wins;
otherwise the host must embed exactly one `host:port` with a numeric port,
else a `ValueError` is raised (including the two-way-unpack failure when the
host holds more than one colon). -/
def canonicalize (host : String) (port : Option Int) : Except PyError (String × Int) :=
  match port with
  | some p => Except.ok (host, p)
  | none =>
    if host.contains ':' then
      match host.splitOn ":" with
      | [h, ps] =>
        match ps.toInt? with
        | some p => Except.ok (h, p)
        | none => Except.error PyError.valueError
      | _ => Except.error PyError.valueError
    else Except.error PyError.valueError

/-- The state of one `SimpleClient` (lines 53–62).  `protocol` is an opaque
identifier of the thrift service stub; `file` is an opaque handle to the
audit log when one is configured; `pid` models Python object identity. -/
structure SimpleClient where
  protocol : Nat
  host : String
  port : Int
  frame : Bool
  timeout : Int
  file : Option Nat
  enabled : Bool
  pid : Nat
deriving DecidableEq, Repr

/-- Lines 54–62: `SimpleClient.__init__`.  The host/port pair is canonicalized
once; the timeout falls back to `_DEFAULT_TIMEOUT` via Python `or`; the audit
file is opened only when a log filename is given (`logFile = none` models a
falsy `log_filename`); the client starts enabled. -/
def simpleClientInit (protocol : Nat) (host : String) (port : Option Int) (frame : Bool)
    (logFile : Option Nat) (timeout : Option Int) (pid : Nat) : Except PyError SimpleClient :=
  match canonicalize host port with
  | Except.error e => Except.error e
  | Except.ok (h, p) =>
    Except.ok
      { protocol := protocol, host := h, port := p, frame := frame,
        timeout := pyIntOr timeout _DEFAULT_TIMEOUT,
        file := logFile, enabled := true, pid := pid }

/-- The oracle for one invocation against one peer: the outcome each external
step would produce if attempted.  `connectFile` is `_connect_file` (audit
transport construction and open, lines 84–91), `auditInvoke` the method call
against the audit client (line 100), `connect` the real `_connect`
(lines 73–82), `invoke` the real remote call (line 105). -/
structure CallEnv (α : Type) where
  connectFile : Except PyError Unit
  auditInvoke : Except PyError Unit
  connect : Except PyError Unit
  invoke : Except PyError α

/-- Observable side effects of one `SimpleClient` invocation. -/
structure CallTrace where
  auditTransportOpened : Bool
  auditInvokeAttempted : Bool
  connectAttempted : Bool
  socketClosed : Bool
deriving DecidableEq, Repr

/-- Lines 104–107: the real call.  `client = self._connect()` (may raise);
`ret = getattr(client, k)(*args, **kwargs)` (may raise); only on the
fall-through success path does line 106 run `self.socket.close()` — there is
no `try/finally`, so a raising connect or invoke leaves the socket unclosed.
`aud` carries the audit flags of the trace accumulated so far. -/
def simpleRealCall (env : CallEnv α) (aud : Bool × Bool) : Except PyError α × CallTrace :=
  match env.connect with
  | Except.error e => (Except.error e, ⟨aud.1, aud.2, true, false⟩)
  | Except.ok _ =>
    match env.invoke with
    | Except.error e => (Except.error e, ⟨aud.1, aud.2, true, false⟩)
    | Except.ok v => (Except.ok v, ⟨aud.1, aud.2, true, true⟩)

/-- Lines 93–109: one invocation through `SimpleClient.__getattr__`.
Control flow of the closure `f`:
1. line 95–96: a disabled client raises `ClientDisabledError` before anything
   else;
2. line 97–98: when an audit file is configured, `client_file =
   self._connect_file()` runs OUTSIDE the `try`, so its failure propagates
   and the real call is never attempted;
3. lines 99–102: the audit invocation runs inside `try/except: pass`, so its
   outcome is discarded (when no file is configured, `client_file` is an
   unbound local and the `try` body raises `UnboundLocalError`, equally
   swallowed — no audit attempt happens);
4. lines 104–107: the real call, `simpleRealCall`. -/
def simpleCall (s : SimpleClient) (env : CallEnv α) : Except PyError α × CallTrace :=
  if !s.enabled then
    (Except.error PyError.clientDisabled, ⟨false, false, false, false⟩)
  else
    match s.file with
    | some _ =>
      match env.connectFile with
      | Except.error e => (Except.error e, ⟨true, false, false, false⟩)
      | Except.ok _ =>
        let _auditResult := env.auditInvoke
        simpleRealCall env (true, true)
    | none => simpleRealCall env (false, false)

/-- A `ThriftResponse` (lines 27–39) or `ThriftExceptionResponse`
(lines 41–51): the tagged per-peer outcome of a broadcast. -/
inductive Response (α : Type) where
  | success (server : SimpleClient) (response : α)
  | failure (server : SimpleClient) (exception : PyError)
deriving DecidableEq, Repr

/-- The outcome the broadcast loop records for one server (lines 149–153):
a returned value is wrapped as `ThriftResponse`, a raised exception as
`ThriftExceptionResponse`. -/
def singleOutcome (s : SimpleClient) (env : CallEnv α) : Response α :=
  match (simpleCall s env).1 with
  | Except.ok v => Response.success s v
  | Except.error e => Response.failure s e

/-- The `for server in self.servers` loop of `ReplicatedClient.__getattr__`
(lines 146–154), with its `responses` accumulator; `envOf i` is the oracle
for the `i`-th sequential call. -/
def replicatedLoop (envOf : Nat → CallEnv α) :
    Nat → List SimpleClient → List (Response α) → List (Response α)
  | _, [], responses => responses
  | i, server :: rest, responses =>
    replicatedLoop envOf (i + 1) rest (responses ++ [singleOutcome server (envOf i)])

/-- Lines 145–155: one broadcast through `ReplicatedClient.__getattr__`. -/
def replicatedCall (envOf : Nat → CallEnv α) (servers : List SimpleClient) :
    List (Response α) :=
  replicatedLoop envOf 0 servers []

/-- Structural companion of `replicatedLoop` used to reason about it:
the outcomes in peer order starting from call counter `i`. -/
def broadcastSpec (envOf : Nat → CallEnv α) : Nat → List SimpleClient → List (Response α)
  | _, [] => []
  | i, server :: rest => singleOutcome server (envOf i) :: broadcastSpec envOf (i + 1) rest

/-- The state of a `ReplicatedClient` (lines 123–129). -/
structure ReplState where
  protocol : Nat
  frame : Bool
  timeout : Option Int
  servers : List SimpleClient

/-- Lines 124–129: `ReplicatedClient.__init__`.  Line 127 is
`self.timeout = None`: the constructor's `timeout` argument is discarded. -/
def replicatedInit (protocol : Nat) (frame : Bool) (timeout : Option Int) : ReplState :=
  { protocol := protocol, frame := frame, timeout := none, servers := [] }

/-- Lines 131–135: `ReplicatedClient.add_server` with `host`/`port` (no
explicit server object): builds a `SimpleClient` from the dispatcher's own
stored fields — in particular its stored `timeout` — and appends it. -/
def replAddServer (st : ReplState) (host : String) (port : Option Int) (pid : Nat) :
    Except PyError ReplState :=
  match simpleClientInit st.protocol host port st.frame none st.timeout pid with
  | Except.error e => Except.error e
  | Except.ok server => Except.ok { st with servers := st.servers ++ [server] }

/-- Lines 131–135 with an explicit `server=` object: the object is appended
unchanged. -/
def replAddServerObj (st : ReplState) (server : SimpleClient) : ReplState :=
  { st with servers := st.servers ++ [server] }

/-- The shared core of `ReplicatedClient.remove_server` (lines 137–143),
acting on one server list.  With an explicit `server`, `list.remove` drops
the first occurrence or raises `ValueError` (without mutating); otherwise the
address is canonicalized (may raise) and every server at that address is
filtered out.  The returned `Option PyError` is the exception raised, if
any. -/
def removeFromList (servers : List SimpleClient) (server : Option SimpleClient)
    (host : String) (port : Option Int) : List SimpleClient × Option PyError :=
  match server with
  | some sv =>
    if sv ∈ servers then (servers.erase sv, none)
    else (servers, some PyError.valueError)
  | none =>
    match canonicalize host port with
    | Except.error e => (servers, some e)
    | Except.ok (h, p) =>
      (servers.filter (fun s => !(decide ((h, p) = (s.host, s.port)))), none)

/-- Lines 137–143: `ReplicatedClient.remove_server` on its own state. -/
def replRemoveServer (st : ReplState) (server : Option SimpleClient)
    (host : String) (port : Option Int) : ReplState × Option PyError :=
  match removeFromList st.servers server host port with
  | (servers1, e) => ({ st with servers := servers1 }, e)

/-- An element of the tuple `args + tuple(sorted(kwargs.items()))` built on
line 222: either a positional argument or a keyword item pair. -/
abbrev HKElem := Sum Int (String × Int)

/-- The order Python uses to sort `kwargs.items()`: lexicographic comparison
of the `(key, value)` tuples (keys compared first; values only on equal
keys, which cannot happen for dict items). -/
def pairLe (a b : String × Int) : Prop :=
  a.1 < b.1 ∨ (a.1 = b.1 ∧ a.2 ≤ b.2)

instance (a b : String × Int) : Decidable (pairLe a b) := by
  unfold pairLe
  infer_instance

instance : IsTotal (String × Int) pairLe := by
  constructor
  intro a b
  rcases lt_trichotomy a.1 b.1 with h | h | h
  · exact Or.inl (Or.inl h)
  · rcases le_total a.2 b.2 with h2 | h2
    · exact Or.inl (Or.inr ⟨h, h2⟩)
    · exact Or.inr (Or.inr ⟨h.symm, h2⟩)
  · exact Or.inr (Or.inl h)

instance : IsTrans (String × Int) pairLe := by
  constructor
  intro a b c hab hbc
  rcases hab with h1 | ⟨h1, h1v⟩
  · rcases hbc with h2 | ⟨h2, h2v⟩
    · exact Or.inl (h1.trans h2)
    · exact Or.inl (h2 ▸ h1)
  · rcases hbc with h2 | ⟨h2, h2v⟩
    · exact Or.inl (h1 ▸ h2)
    · exact Or.inr ⟨h1.trans h2, h1v.trans h2v⟩

instance : IsAntisymm (String × Int) pairLe := by
  constructor
  intro a b hab hba
  rcases hab with h1 | ⟨h1, h1v⟩
  · rcases hba with h2 | ⟨h2, h2v⟩
    · exact absurd (h1.trans h2) (lt_irrefl a.1)
    · exact absurd h1 (by rw [h2]; exact lt_irrefl a.1)
  · rcases hba with h2 | ⟨h2, h2v⟩
    · exact absurd h2 (by rw [h1]; exact lt_irrefl b.1)
    · exact Prod.ext h1 (le_antisymm h1v h2v)

/-- Python `sorted(kwargs.items())` (line 222).  On the linear order `pairLe`
every correct sorting algorithm computes the same list, so insertion sort is
an exact model of Python's sort. -/
def sortPairs (kwargs : List (String × Int)) : List (String × Int) :=
  kwargs.insertionSort pairLe

/-- Line 222: `hashkey = args + tuple(sorted(kwargs.items()))`. -/
def buildHashkey (args : List Int) (kwargs : List (String × Int)) : List HKElem :=
  args.map Sum.inl ++ (sortPairs kwargs).map Sum.inr

/-- Lines 222–224 for the default (no custom hash function) path: build the
hash key, hash it, and reduce it modulo the server count.  With zero servers
Python's `%` raises `ZeroDivisionError`; for a positive count Python's `%`
returns a value in `[0, n)`, which `Int.emod` matches. -/
def defaultRouteIndex (pyhash : List HKElem → Int) (n : Nat)
    (args : List Int) (kwargs : List (String × Int)) : Except PyError Nat :=
  if n = 0 then Except.error PyError.zeroDivision
  else Except.ok (pyhash (buildHashkey args kwargs) % (n : Int)).toNat

/-- The state of a `HashClient` (lines 191–199): its own server list, the
embedded `ReplicatedClient` bound to `self.all`, and the per-method custom
hash-function registry `self.hashfns`. -/
structure HCState where
  servers : List SimpleClient
  protocol : Nat
  frame : Bool
  timeout : Option Int
  all : ReplState
  hashfns : String → Option (List Int → List (String × Int) → Int)

/-- Lines 192–199: `HashClient.__init__`.  Unlike `ReplicatedClient`, line 196
keeps the timeout; `self.all` is a fresh `ReplicatedClient`; `self.hashfns`
starts empty. -/
def hashClientInit (protocol : Nat) (frame : Bool) (timeout : Option Int) : HCState :=
  { servers := [], protocol := protocol, frame := frame, timeout := timeout,
    all := replicatedInit protocol frame timeout,
    hashfns := fun _ => none }

/-- The instance attributes bound by `HashClient.__init__` (lines 192–199).
Any other attribute lookup falls through to `__getattr__` (line 217). -/
def hcInstanceAttrs : List String :=
  ["servers", "protocol", "frame", "timeout", "all", "hashfns"]

/-- Whether an attribute name resolves to an instance attribute of a
`HashClient` rather than falling through to `__getattr__`. -/
def hcHasInstanceAttr (name : String) : Bool :=
  hcInstanceAttrs.contains name

/-- Lines 213–215: `HashClient.set_hash` executes
`self.hashfuncs[fnname] = hashfn`.  The attribute read `self.hashfuncs`
resolves through `hcHasInstanceAttr "hashfuncs"`: `__init__` never binds the
name `hashfuncs` (the registry is named `hashfns`), so the lookup falls
through to `__getattr__`, which returns the method closure `f`; item
assignment on a function object raises `TypeError`, and the registry is left
untouched. -/
def hcSetHash (st : HCState) (fnname : String)
    (hashfn : List Int → List (String × Int) → Int) : Except PyError HCState :=
  if hcHasInstanceAttr "hashfuncs" then
    Except.ok { st with hashfns := fun s => if s = fnname then some hashfn else st.hashfns s }
  else
    Except.error PyError.typeError

/-- Lines 201–206: `HashClient.add_server`.  A missing server object is built
from the router's own fields (including its kept timeout, line 203); the
server — given or built — is appended to `self.servers` and, via
`self.all.add_server(server=server)`, to the embedded dispatcher's list. -/
def hcAddServer (st : HCState) (host : String) (port : Option Int)
    (server : Option SimpleClient) (pid : Nat) : Except PyError HCState :=
  match server with
  | some sv =>
    Except.ok { st with servers := st.servers ++ [sv], all := replAddServerObj st.all sv }
  | none =>
    match simpleClientInit st.protocol host port st.frame none st.timeout pid with
    | Except.error e => Except.error e
    | Except.ok sv =>
      Except.ok { st with servers := st.servers ++ [sv], all := replAddServerObj st.all sv }

/-- Lines 208–211: `HashClient.remove_server` first runs
`ReplicatedClient.remove_server(self, ...)` on its own `self.servers`, then —
only if that did not raise — `self.all.remove_server(...)` on the embedded
dispatcher's list.  The `Option PyError` is the exception propagated, if
any. -/
def hcRemoveServer (st : HCState) (server : Option SimpleClient)
    (host : String) (port : Option Int) : HCState × Option PyError :=
  match removeFromList st.servers server host port with
  | (servers1, some e) => ({ st with servers := servers1 }, some e)
  | (servers1, none) =>
    match removeFromList st.all.servers server host port with
    | (all1, e2) =>
      ({ st with servers := servers1, all := { st.all with servers := all1 } }, e2)

/-- One peer-set mutation on a `HashClient`: an `add_server` or a
`remove_server` call with its Python arguments (for an `add` by address,
`pid` models the identity of the freshly constructed server object; the
`host` argument of a remove-by-object call is unused, as in the source). -/
inductive HCOp where
  | add (host : String) (port : Option Int) (server : Option SimpleClient) (pid : Nat)
  | remove (server : Option SimpleClient) (host : String) (port : Option Int)

/-- Applying one mutation to the router state; a raising call leaves the
state as the partially-applied source would (an `add_server` that raises in
`SimpleClient.__init__` mutates nothing). -/
def hcApplyOp (st : HCState) : HCOp → HCState
  | HCOp.add host port server pid =>
    match hcAddServer st host port server pid with
    | Except.ok st1 => st1
    | Except.error _ => st
  | HCOp.remove server host port => (hcRemoveServer st server host port).1

/-- A sequence of `add_server` / `remove_server` calls. -/
def hcApplyOps (st : HCState) (ops : List HCOp) : HCState :=
  ops.foldl hcApplyOp st

/-- Lines 217–231: one invocation of method `k` through
`HashClient.__getattr__`.  Lines 219–222 bind, in the custom branch, only
`hashval` (the custom function is applied and its value bound), and in the
default branch only `hashkey`.  Line 223 then runs unconditionally:
`hashval = hash(hashkey)` — in the custom branch the local `hashkey` was
never assigned, so reading it raises `UnboundLocalError` (and the custom
value just computed is dead).  Line 224 divides by the server count
(`ZeroDivisionError` when empty), line 225 indexes the list, and lines
226–230 run the selected peer's call, tagging any exception with the peer
before re-raising.  The error component pairs the exception with the server
it was tagged with, when any. -/
def hashClientCall (st : HCState) (pyhash : List HKElem → Int) (k : String)
    (args : List Int) (kwargs : List (String × Int)) (envOf : Nat → CallEnv α) :
    Except (PyError × Option SimpleClient) α :=
  match st.hashfns k with
  | some fn =>
    let _hashval := fn args kwargs
    Except.error (PyError.unboundLocal "hashkey", none)
  | none =>
    match defaultRouteIndex pyhash st.servers.length args kwargs with
    | Except.error e => Except.error (e, none)
    | Except.ok server_index =>
      match st.servers[server_index]? with
      | none => Except.error (PyError.indexError, none)
      | some server =>
        match (simpleCall server (envOf server_index)).1 with
        | Except.ok ret => Except.ok ret
        | Except.error e => Except.error (e, some server)

/-- Concrete enabled peer "a":100 with no audit file. -/
def serverA : SimpleClient :=
  ⟨0, "a", 100, false, 60001, none, true, 1⟩

/-- Concrete enabled peer "b":200 with no audit file. -/
def serverB : SimpleClient :=
  ⟨0, "b", 200, false, 60001, none, true, 2⟩

/-- Concrete disabled peer "c":300. -/
def serverDisabledC : SimpleClient :=
  ⟨0, "c", 300, false, 60001, none, false, 3⟩

/-- Concrete enabled peer with an audit-log handle configured. -/
def serverAudited : SimpleClient :=
  ⟨0, "a", 100, false, 60001, some 0, true, 4⟩

/-- Oracle where every external step succeeds and the remote call returns 7. -/
def envOk : CallEnv Int :=
  ⟨Except.ok (), Except.ok (), Except.ok (), Except.ok 7⟩

/-- Oracle where the connection opens but the remote call raises. -/
def envInvokeFail : CallEnv Int :=
  ⟨Except.ok (), Except.ok (), Except.ok (), Except.error (PyError.transport 7)⟩

/-- Oracle where opening the audit transport (`_connect_file`) raises. -/
def envAuditOpenFail : CallEnv Int :=
  ⟨Except.error (PyError.transport 3), Except.ok (), Except.ok (), Except.ok 7⟩

/-- Per-call oracle assigning `envOk` to every sequential call. -/
def envOfW : Nat → CallEnv Int := fun _ => envOk

/-- A concrete stand-in for Python `hash`: the length of the key tuple. -/
def pyhashLen : List HKElem → Int := fun l => (l.length : Int)

/-- A concrete custom shard-key function. -/
def customFn : List Int → List (String × Int) → Int := fun _ _ => 0

/-- A hash router with one server and a custom hash function registered for
method "m" (the state `set_hash` was supposed to produce). -/
def hcCustom : HCState :=
  { servers := [serverA], protocol := 0, frame := false, timeout := none,
    all := replAddServerObj (replicatedInit 0 false none) serverA,
    hashfns := fun s => if s = "m" then some customFn else none }

/-- The dispatcher state produced by adding "h":9 to a fresh
`ReplicatedClient` built with timeout 5. -/
def repl1 : ReplState :=
  { protocol := 0, frame := false, timeout := none,
    servers := [⟨0, "h", 9, false, 60001, none, true, 0⟩] }

theorem replicatedLoop_eq_append (envOf : Nat → CallEnv α) (servers : List SimpleClient) :
    ∀ (i : Nat) (acc : List (Response α)),
      replicatedLoop envOf i servers acc = acc ++ broadcastSpec envOf i servers := by
  induction servers with
  | nil => intro i acc; simp [replicatedLoop, broadcastSpec]
  | cons s rest ih => intro i acc; simp [replicatedLoop, broadcastSpec, ih]

theorem broadcastSpec_length (envOf : Nat → CallEnv α) (servers : List SimpleClient) :
    ∀ (i : Nat), (broadcastSpec envOf i servers).length = servers.length := by
  induction servers with
  | nil => intro i; rfl
  | cons s rest ih => intro i; simp [broadcastSpec, ih]

theorem broadcastSpec_getElem? (envOf : Nat → CallEnv α) (servers : List SimpleClient) :
    ∀ (i j : Nat) (hj : j < servers.length),
      (broadcastSpec envOf i servers)[j]? =
        some (singleOutcome (servers.get ⟨j, hj⟩) (envOf (i + j))) := by
  induction servers with
  | nil => intro i j hj; exact absurd hj (by simp)
  | cons s rest ih =>
    intro i j hj
    cases j with
    | zero => simp [broadcastSpec]
    | succ j1 =>
      have hj1 : j1 < rest.length := Nat.lt_of_succ_lt_succ hj
      have := ih (i + 1) j1 hj1
      simp only [broadcastSpec, List.getElem?_cons_succ, List.get_cons_succ]
      rw [this]
      have harith : i + 1 + j1 = i + (j1 + 1) := by omega
      rw [harith]

theorem replicatedCall_length (envOf : Nat → CallEnv α) (servers : List SimpleClient) :
    (replicatedCall envOf servers).length = servers.length := by
  rw [replicatedCall, replicatedLoop_eq_append]
  simp [broadcastSpec_length]

theorem replicatedCall_getElem? (envOf : Nat → CallEnv α) (servers : List SimpleClient)
    (j : Nat) (hj : j < servers.length) :
    (replicatedCall envOf servers)[j]? =
      some (singleOutcome (servers.get ⟨j, hj⟩) (envOf j)) := by
  rw [replicatedCall, replicatedLoop_eq_append]
  simpa using broadcastSpec_getElem? envOf servers 0 j hj

/-- C4: a sequential broadcast returns exactly one outcome per peer, in peer
insertion order, the `j`-th outcome being the `j`-th peer's own call outcome —
a success wrapping its return value or a failure wrapping its raised
exception — independent of any other peer's failure. -/
theorem c4_broadcast_one_outcome_per_peer (envOf : Nat → CallEnv α)
    (servers : List SimpleClient) :
    (replicatedCall envOf servers).length = servers.length ∧
    ∀ (j : Nat) (hj : j < servers.length),
      (replicatedCall envOf servers)[j]? =
        some (singleOutcome (servers.get ⟨j, hj⟩) (envOf j)) ∧
      (∀ v, (simpleCall (servers.get ⟨j, hj⟩) (envOf j)).1 = Except.ok v →
        (replicatedCall envOf servers)[j]? =
          some (Response.success (servers.get ⟨j, hj⟩) v)) ∧
      (∀ e, (simpleCall (servers.get ⟨j, hj⟩) (envOf j)).1 = Except.error e →
        (replicatedCall envOf servers)[j]? =
          some (Response.failure (servers.get ⟨j, hj⟩) e)) := by
  refine ⟨replicatedCall_length envOf servers, ?_⟩
  intro j hj
  refine ⟨replicatedCall_getElem? envOf servers j hj, ?_, ?_⟩
  · intro v hv
    rw [replicatedCall_getElem? envOf servers j hj]
    simp only [singleOutcome, List.get_eq_getElem] at hv ⊢
    rw [hv]
  · intro e he
    rw [replicatedCall_getElem? envOf servers j hj]
    simp only [singleOutcome, List.get_eq_getElem] at he ⊢
    rw [he]

/-- Witness for C4 at a concrete two-peer broadcast where the first peer
succeeds and the second (disabled) fails. -/
theorem c4_broadcast_one_outcome_per_peer_witness :
    (replicatedCall envOfW [serverA, serverDisabledC]).length = 2 ∧
    (replicatedCall envOfW [serverA, serverDisabledC])[0]? =
      some (Response.success serverA 7) ∧
    (replicatedCall envOfW [serverA, serverDisabledC])[1]? =
      some (Response.failure serverDisabledC PyError.clientDisabled) := by
  have h := c4_broadcast_one_outcome_per_peer envOfW [serverA, serverDisabledC]
  exact ⟨h.1, (h.2 0 (by decide)).2.1 7 rfl, (h.2 1 (by decide)).2.2 PyError.clientDisabled rfl⟩

/-- C5: invoking a method on a disabled peer raises `ClientDisabledError`
immediately — no audit-transport open, no audit write, no connection attempt,
no socket close — and inside a broadcast the disabled peer yields a failure
outcome while every peer's outcome is exactly its own call outcome,
unaffected by the others. -/
theorem c5_disabled_peer (s : SimpleClient) (hs : s.enabled = false) (env : CallEnv α) :
    simpleCall s env = (Except.error PyError.clientDisabled, ⟨false, false, false, false⟩) ∧
    ∀ (servers : List SimpleClient) (envOf : Nat → CallEnv α) (j : Nat)
      (hj : j < servers.length), servers.get ⟨j, hj⟩ = s →
      (replicatedCall envOf servers)[j]? =
        some (Response.failure s PyError.clientDisabled) ∧
      ∀ (i : Nat) (hi : i < servers.length),
        (replicatedCall envOf servers)[i]? =
          some (singleOutcome (servers.get ⟨i, hi⟩) (envOf i)) := by
  have hdirect : ∀ (β : Type) (e : CallEnv β),
      simpleCall s e = (Except.error PyError.clientDisabled, ⟨false, false, false, false⟩) := by
    intro β e
    simp [simpleCall, hs]
  refine ⟨hdirect α env, ?_⟩
  intro servers envOf j hj hgets
  refine ⟨?_, fun i hi => replicatedCall_getElem? envOf servers i hi⟩
  rw [replicatedCall_getElem? envOf servers j hj, hgets]
  simp [singleOutcome, hdirect]

/-- Witness for C5: the disabled peer "c":300 directly raises
`ClientDisabledError` with no side effect, and in a broadcast with enabled
peer "b":200 it yields a failure outcome while "b" still succeeds. -/
theorem c5_disabled_peer_witness :
    simpleCall serverDisabledC envOk =
      (Except.error PyError.clientDisabled, ⟨false, false, false, false⟩) ∧
    (replicatedCall envOfW [serverDisabledC, serverB])[0]? =
      some (Response.failure serverDisabledC PyError.clientDisabled) ∧
    (replicatedCall envOfW [serverDisabledC, serverB])[1]? =
      some (Response.success serverB 7) := by
  have h := c5_disabled_peer serverDisabledC rfl envOk
  have hb := h.2 [serverDisabledC, serverB] envOfW 0 (by decide) rfl
  refine ⟨h.1, hb.1, ?_⟩
  rw [hb.2 1 (by decide)]
  rfl

/-- C3 counterexample: an enabled peer whose connection opens and whose
remote call then raises — the failure propagates but `socket.close()` on
line 106 is skipped (no `try/finally`), so the connection is NOT closed on
this exit path, refuting "closed on every exit path". -/
theorem c3_counterexample :
    (simpleCall serverA envInvokeFail).1 = Except.error (PyError.transport 7) ∧
    (simpleCall serverA envInvokeFail).2.socketClosed = false :=
  ⟨rfl, rfl⟩

/-- C3 (amended): for a single-peer invocation that reaches the remote-call
step, the connection is closed when the remote call returns a value; when the
remote call raises, the failure propagates to the caller and the connection
is left unclosed. -/
theorem c3_close_only_on_success (s : SimpleClient) (env : CallEnv α)
    (hen : s.enabled = true) (haud : s.file = none ∨ env.connectFile = Except.ok ())
    (hconn : env.connect = Except.ok ()) :
    (∀ v, env.invoke = Except.ok v →
      (simpleCall s env).1 = Except.ok v ∧ (simpleCall s env).2.socketClosed = true) ∧
    (∀ e, env.invoke = Except.error e →
      (simpleCall s env).1 = Except.error e ∧ (simpleCall s env).2.socketClosed = false) := by
  have hcall : ∃ aud, simpleCall s env = simpleRealCall env aud := by
    cases hf : s.file with
    | none => exact ⟨(false, false), by simp [simpleCall, hen, hf]⟩
    | some fh =>
      rcases haud with h | h
      · rw [hf] at h
        exact absurd h (by simp)
      · exact ⟨(true, true), by simp [simpleCall, hen, hf, h]⟩
  obtain ⟨aud, hca⟩ := hcall
  constructor
  · intro v hv
    rw [hca]
    simp [simpleRealCall, hconn, hv]
  · intro e he
    rw [hca]
    simp [simpleRealCall, hconn, he]

/-- Witness for C3 (amended) on the success path of a concrete peer. -/
theorem c3_close_only_on_success_witness :
    (simpleCall serverA envOk).1 = Except.ok 7 ∧
    (simpleCall serverA envOk).2.socketClosed = true := by
  exact (c3_close_only_on_success serverA envOk rfl (Or.inl rfl) rfl).1 7 rfl

/-- C7 counterexample: an enabled peer with an audit file configured whose
`_connect_file` (opening the audit transport) raises — the failure
propagates to the caller (line 98 is outside the `try`) and the real remote
call is never attempted, refuting "any failure raised during the audit
attempt is discarded". -/
theorem c7_counterexample :
    serverAudited.file = some 0 ∧
    (simpleCall serverAudited envAuditOpenFail).1 = Except.error (PyError.transport 3) ∧
    (simpleCall serverAudited envAuditOpenFail).2.connectAttempted = false :=
  ⟨rfl, rfl, rfl⟩

/-- C7 (amended): once the audit transport has opened, a failure of the audit
invocation itself is discarded — the call's result does not depend on the
audit invocation's outcome — and the real remote call is always attempted. -/
theorem c7_audit_invoke_failures_discarded (s : SimpleClient) (env : CallEnv α)
    (x : Except PyError Unit) (hen : s.enabled = true) (fh : Nat)
    (hfile : s.file = some fh) (hcf : env.connectFile = Except.ok ()) :
    simpleCall s { env with auditInvoke := x } = simpleCall s env ∧
    (simpleCall s env).2.connectAttempted = true := by
  constructor
  · simp only [simpleCall, hen, hfile, hcf]
    rfl
  · cases hc : env.connect with
    | error e => simp [simpleCall, simpleRealCall, hen, hfile, hcf, hc]
    | ok u =>
      cases hi : env.invoke with
      | error e2 => simp [simpleCall, simpleRealCall, hen, hfile, hcf, hc, hi]
      | ok v => simp [simpleCall, simpleRealCall, hen, hfile, hcf, hc, hi]

/-- Witness for C7 (amended): replacing a successful audit invocation by a
raising one changes nothing for the concrete audited peer, and its real call
is attempted. -/
theorem c7_audit_invoke_failures_discarded_witness :
    simpleCall serverAudited { envOk with auditInvoke := Except.error (PyError.transport 9) } =
      simpleCall serverAudited envOk ∧
    (simpleCall serverAudited envOk).2.connectAttempted = true :=
  c7_audit_invoke_failures_discarded serverAudited envOk
    (Except.error (PyError.transport 9)) rfl 0 rfl rfl

theorem sortPairs_perm_eq {kw1 kw2 : List (String × Int)} (h : kw1.Perm kw2) :
    sortPairs kw1 = sortPairs kw2 :=
  List.eq_of_perm_of_sorted
    ((List.perm_insertionSort pairLe kw1).trans
      (h.trans (List.perm_insertionSort pairLe kw2).symm))
    (List.sorted_insertionSort pairLe kw1)
    (List.sorted_insertionSort pairLe kw2)

/-- C6: the default routing computation is deterministic — it is a function
of the arguments and the peer count, so repeated invocations with identical
arguments and unchanged peers select the same index — and the selected index
does not depend on the order in which keyword arguments are supplied,
because line 222 sorts `kwargs.items()` before hashing. -/
theorem c6_default_routing_deterministic (pyhash : List HKElem → Int) (n : Nat)
    (args : List Int) (kw1 kw2 : List (String × Int)) (hperm : kw1.Perm kw2) :
    defaultRouteIndex pyhash n args kw1 = defaultRouteIndex pyhash n args kw1 ∧
    defaultRouteIndex pyhash n args kw1 = defaultRouteIndex pyhash n args kw2 := by
  refine ⟨rfl, ?_⟩
  unfold defaultRouteIndex buildHashkey
  rw [sortPairs_perm_eq hperm]

/-- Witness for C6: with three peers, `f(b=2, a=1)` and `f(a=1, b=2)` route
to the same concrete index. -/
theorem c6_default_routing_deterministic_witness :
    defaultRouteIndex pyhashLen 3 [5] [("b", 2), ("a", 1)] =
      defaultRouteIndex pyhashLen 3 [5] [("a", 1), ("b", 2)] ∧
    defaultRouteIndex pyhashLen 3 [5] [("b", 2), ("a", 1)] = Except.ok 0 := by
  refine ⟨(c6_default_routing_deterministic pyhashLen 3 [5]
    [("b", 2), ("a", 1)] [("a", 1), ("b", 2)] (by decide)).2, ?_⟩
  have hsort : sortPairs [("b", 2), ("a", 1)] = [("a", 1), ("b", 2)] := by
    simp [sortPairs, List.insertionSort, List.orderedInsert, pairLe]
    decide
  simp [defaultRouteIndex, buildHashkey, hsort, pyhashLen]

/-- C1: whenever the invoked method has a registered custom hash function,
`HashClient.__getattr__` computes the custom value (line 220) but line 223
unconditionally rebinds `hashval` from the local `hashkey`, which the custom
branch never assigned — the invocation raises `UnboundLocalError` instead of
routing by the custom shard key, so the custom-hash path is never actually
used. -/
theorem c1_custom_hash_path_raises_unbound_local (st : HCState)
    (pyhash : List HKElem → Int) (k : String)
    (fn : List Int → List (String × Int) → Int) (hfn : st.hashfns k = some fn)
    (args : List Int) (kwargs : List (String × Int)) (envOf : Nat → CallEnv α) :
    hashClientCall st pyhash k args kwargs envOf =
      Except.error (PyError.unboundLocal "hashkey", none) := by
  simp [hashClientCall, hfn]

/-- Witness for C1: a router with one healthy server and a custom hash
function for "m" raises `UnboundLocalError` on `m(1)` instead of routing. -/
theorem c1_custom_hash_path_raises_unbound_local_witness :
    hcCustom.hashfns "m" = some customFn ∧
    hashClientCall hcCustom pyhashLen "m" [1] [] envOfW =
      Except.error (PyError.unboundLocal "hashkey", none) := by
  have hfn : hcCustom.hashfns "m" = some customFn := by
    simp [hcCustom]
  exact ⟨hfn,
    c1_custom_hash_path_raises_unbound_local hcCustom pyhashLen "m" customFn hfn [1] [] envOfW⟩

/-- C2: invoking any method on a freshly built hash router, whose peer list
is empty, reaches `hashval % len(self.servers)` (line 224) with a zero
modulus and fails with `ZeroDivisionError` — no `NoPeersAvailable` guard
exists anywhere in the code. -/
theorem c2_empty_peers_division_by_zero (protocol : Nat) (frame : Bool)
    (timeout : Option Int) (pyhash : List HKElem → Int) (k : String)
    (args : List Int) (kwargs : List (String × Int)) (envOf : Nat → CallEnv α) :
    hashClientCall (hashClientInit protocol frame timeout) pyhash k args kwargs envOf =
      Except.error (PyError.zeroDivision, none) := by
  simp [hashClientCall, hashClientInit, defaultRouteIndex]

/-- C9: `set_hash` always raises `TypeError` and never updates the registry:
it assigns into `self.hashfuncs`, a name `__init__` never binds (the real
registry is `self.hashfns`), so the lookup falls through to `__getattr__`,
which returns the method closure, and item assignment on a function raises
`TypeError`. -/
theorem c9_set_hash_raises_type_error (st : HCState) (fnname : String)
    (hashfn : List Int → List (String × Int) → Int) :
    hcSetHash st fnname hashfn = Except.error PyError.typeError ∧
    hcHasInstanceAttr "hashfuncs" = false ∧
    hcHasInstanceAttr "hashfns" = true :=
  ⟨rfl, rfl, rfl⟩

/-- C10: a `ReplicatedClient` discards the timeout given at construction
(line 127 stores `None`), and from any state with that discarded timeout,
`add_server(host, port)` builds its peer with `timeout=None`, which
`SimpleClient.__init__` replaces by the fixed default 60001. -/
theorem c10_replicated_timeout_discarded (protocol : Nat) (frame : Bool)
    (timeout : Option Int) (st : ReplState) (hst : st.timeout = none)
    (host : String) (port : Option Int) (pid : Nat) (st1 : ReplState)
    (h : replAddServer st host port pid = Except.ok st1) :
    (replicatedInit protocol frame timeout).timeout = none ∧
    ∃ server, st1.servers = st.servers ++ [server] ∧
      server.timeout = _DEFAULT_TIMEOUT := by
  refine ⟨rfl, ?_⟩
  unfold replAddServer simpleClientInit at h
  rw [hst] at h
  cases hc : canonicalize host port with
  | error e =>
    rw [hc] at h
    exact absurd h (by simp)
  | ok hp =>
    rw [hc] at h
    obtain ⟨hh, pp⟩ := hp
    simp only [Except.ok.injEq] at h
    subst h
    exact ⟨_, rfl, rfl⟩

/-- Witness for C10: building the dispatcher with timeout 5 and adding
"h":9 yields a peer whose timeout is the default 60001. -/
theorem c10_replicated_timeout_discarded_witness :
    (replicatedInit 0 false (some 5)).timeout = none ∧
    ∃ server, repl1.servers = (replicatedInit 0 false (some 5)).servers ++ [server] ∧
      server.timeout = _DEFAULT_TIMEOUT :=
  c10_replicated_timeout_discarded 0 false (some 5)
    (replicatedInit 0 false (some 5)) rfl "h" (some 9) 0 repl1 rfl

theorem hcApplyOp_lockstep (st : HCState) (op : HCOp)
    (hinv : st.servers = st.all.servers) :
    (hcApplyOp st op).servers = (hcApplyOp st op).all.servers := by
  cases op with
  | add host port server pid =>
    cases server with
    | some sv => simp [hcApplyOp, hcAddServer, replAddServerObj, hinv]
    | none =>
      cases hs : simpleClientInit st.protocol host port st.frame none st.timeout pid with
      | error e => simp [hcApplyOp, hcAddServer, hs, hinv]
      | ok sv => simp [hcApplyOp, hcAddServer, hs, replAddServerObj, hinv]
  | remove server host port =>
    cases server with
    | some sv =>
      simp only [hcApplyOp, hcRemoveServer, removeFromList]
      rw [hinv]
      by_cases hmem : sv ∈ st.all.servers
      · simp [hmem]
      · simp [hmem]
    | none =>
      cases hc : canonicalize host port with
      | error e => simp [hcApplyOp, hcRemoveServer, removeFromList, hc, hinv]
      | ok hp =>
        obtain ⟨hh, pp⟩ := hp
        simp [hcApplyOp, hcRemoveServer, removeFromList, hc, hinv]

theorem hcApplyOps_lockstep (ops : List HCOp) (st : HCState)
    (hinv : st.servers = st.all.servers) :
    (hcApplyOps st ops).servers = (hcApplyOps st ops).all.servers := by
  induction ops generalizing st with
  | nil => exact hinv
  | cons op rest ih => exact ih (hcApplyOp st op) (hcApplyOp_lockstep st op hinv)

theorem hcRemoveServer_addr_filters (st : HCState) (host : String) (p : Int) :
    (hcRemoveServer st none host (some p)).1.servers =
      st.servers.filter (fun s => !(decide ((host, p) = (s.host, s.port)))) ∧
    (hcRemoveServer st none host (some p)).1.all.servers =
      st.all.servers.filter (fun s => !(decide ((host, p) = (s.host, s.port)))) := by
  simp [hcRemoveServer, removeFromList, canonicalize]

/-- C8: after any sequence of `add_server` / `remove_server` operations on a
hash router, the router's own peer list and its embedded broadcast
dispatcher's peer list are identical (same peers, same order), and removing
by `(host, port)` drops exactly the address-matching entries from both
lists. -/
theorem c8_hash_router_lockstep (protocol : Nat) (frame : Bool)
    (timeout : Option Int) (ops : List HCOp) (host : String) (p : Int) :
    (hcApplyOps (hashClientInit protocol frame timeout) ops).servers =
      (hcApplyOps (hashClientInit protocol frame timeout) ops).all.servers ∧
    (hcRemoveServer (hcApplyOps (hashClientInit protocol frame timeout) ops)
        none host (some p)).1.servers =
      (hcApplyOps (hashClientInit protocol frame timeout) ops).servers.filter
        (fun s => !(decide ((host, p) = (s.host, s.port)))) ∧
    (hcRemoveServer (hcApplyOps (hashClientInit protocol frame timeout) ops)
        none host (some p)).1.all.servers =
      (hcApplyOps (hashClientInit protocol frame timeout) ops).all.servers.filter
        (fun s => !(decide ((host, p) = (s.host, s.port)))) := by
  refine ⟨hcApplyOps_lockstep ops (hashClientInit protocol frame timeout) rfl, ?_, ?_⟩
  · exact (hcRemoveServer_addr_filters _ host p).1
  · exact (hcRemoveServer_addr_filters _ host p).2
